import Mathlib

/-!
Verification of the field-selection and strict-input-validation mixins from
`contrib/drf_introspection/serializers.py` of the product-definition-center
repository.

The Python module defines three serializer mixins:

* `IntrospectableSerializerMixin` — collects a set of extra allowed field
  names (`_extra_fields`) and exposes `get_allowed_keys`.
* `DynamicFieldsSerializerMixin` — interprets `fields` / `exclude_fields`
  constructor arguments (and request query parameters for top-level
  serializers) and removes non-selected fields from the live field
  collection.
* `StrictSerializerMixin` — rejects payloads that are not mappings, contain
  unknown keys, or try to set read-only fields.

The embedding below models the serializer's field collection as an ordered
association list from field name to the one attribute the module reads from
a field object, its `read_only` flag.  Raising an exception is modelled by
returning `Except.error`.  The Python exceptions carry formatted message
strings built by joining field-name collections; when that collection is a
Python `set`, the join order is interpreter-dependent, so the errors below
carry the name collection itself (a `Finset` when the source joins a set, a
`List` when it joins a list built in a deterministic order).
-/

/-- The field collection of a serializer instance (`self.fields`): an
insertion-ordered mapping from field name to the field object, of which the
source only ever reads the `read_only` attribute (modelled as the `Bool`
component).  The base framework serializer builds it from the fields
declared in the `Meta` class. -/
abbrev FieldMap : Type := List (String × Bool)

/-- Errors raised by the module.  `validationError` models
`rest_framework.serializers.ValidationError`; the other three constructors
model `django.core.exceptions.FieldError` raised at the three distinct
raise sites, carrying the collection of field names interpolated into the
message. -/
inductive SerializerError where
  /-- `serializers.ValidationError('Invalid input: must be a dict.')` -/
  | validationError (msg : String)
  /-- `FieldError('Unknown fields in "<filter_name>" filter: ...')` raised
  by `_verify_field_names`; the joined collection is a Python set. -/
  | unknownFilterFields (filter_name : String) (names : Finset String)
  /-- `FieldError('Unknown fields: ...')` raised by `maybe_raise_error`;
  the joined collection is a Python set. -/
  | unknownFields (names : Finset String)
  /-- `FieldError('Can not update read only fields: ...')` raised by
  `check_read_only_fields`; the joined collection is a list comprehension,
  so its order is kept. -/
  | readOnlyFields (names : List String)
  deriving DecidableEq

deriving instance DecidableEq for Except

/-- A Python value passed for a field-name-list argument: either a list of
strings or a string.  (`_pop_field_list` distinguishes exactly these two
shapes, and `set.update` iterates either.) -/
inductive PyIterable where
  | list (names : List String)
  | str (s : String)
  deriving DecidableEq

/-- `_pop_field_list(args, argument_name)`: pop the argument (default `[]`);
keep a list as is, split anything else — a string — on commas.  `none`
models an absent keyword argument. -/
def _pop_field_list : Option PyIterable → List String
  | none => []
  | some (.list l) => l
  | some (.str s) => s.splitOn ","

/-- Python `set.update(iterable)`: add every element of the iterable to the
set.  Iterating a Python string yields its characters as one-character
strings, not comma-separated names. -/
def setUpdate (base : Finset String) : PyIterable → Finset String
  | .list ns => base ∪ ns.toFinset
  | .str s => base ∪ (s.data.map (fun c => Char.toString c)).toFinset

/-- The `_extra_fields` set built by `IntrospectableSerializerMixin.__init__`:
start from the empty set, `update` with the class attribute `extra_fields`
when present (an absent attribute is modelled as the empty list, which
updates the set identically), then `update` with the `extra_fields` keyword
argument popped from `kwargs` (default `[]`). -/
def introspectableExtra (classExtra : List String) (kwExtra : Option PyIterable) :
    Finset String :=
  match kwExtra with
  | none => classExtra.toFinset
  | some it => setUpdate classExtra.toFinset it

/-- A serializer instance after `__init__` has finished: the live field
collection and the `_extra_fields` set. -/
structure Serializer where
  fields : FieldMap
  _extra_fields : Finset String
  deriving DecidableEq

/-- `request.query_params.getlist('fields', [])` and
`request.query_params.getlist('exclude_fields', [])` for the request found
in the serializer's context. -/
structure Request where
  fields_params : List String
  exclude_params : List String
  deriving DecidableEq

/-- The serializer's context dictionary: an optional `request` entry and the
`top_level` entry (`context.get('top_level', True)`; an absent key is
modelled by `true`). -/
structure Context where
  request : Option Request
  top_level : Bool
  deriving DecidableEq

/-- `_verify_field_names(fields, valid_fields, filter_name)`: when the list
is non-empty and contains names outside `valid_fields`, raise a
`FieldError` naming exactly `set(fields) - valid_fields`. -/
def _verify_field_names (fields : List String) (valid_fields : Finset String)
    (filter_name : String) : Except SerializerError Unit :=
  if fields.isEmpty then .ok ()
  else
    let invalid_field_names := fields.toFinset \ valid_fields
    if invalid_field_names = ∅ then .ok ()
    else .error (.unknownFilterFields filter_name invalid_field_names)

/-- The loop `for field_name in names: self.fields.pop(field_name)`
(`pop` with or without a default): popping a set of keys from an ordered
mapping keeps exactly the entries whose key is outside the set, in order.
In the branch without a default, every popped key is present, so no
`KeyError` is raised. -/
def popFields (fields : FieldMap) (names : Finset String) : FieldMap :=
  fields.filter (fun p => p.1 ∉ names)

/-- The names of the live field collection, `set(self.fields.keys())`. -/
def fieldNames (fields : FieldMap) : Finset String :=
  (fields.map Prod.fst).toFinset

/-- `__init__` of a serializer using `StrictSerializerMixin` (method
resolution order: `DynamicFieldsSerializerMixin.__init__`, which calls
`IntrospectableSerializerMixin.__init__`, which calls the base framework
serializer that builds `self.fields` from the declared fields).

Arguments: `declared` is the declared field collection the framework
builds, `classExtra` the class attribute `extra_fields` (empty when
absent), `kwFields` / `kwExclude` / `kwExtra` the `fields`,
`exclude_fields` and `extra_fields` keyword arguments (`none` when not
passed), `ctx` the serializer context (`none` when the instance has no
context dictionary). -/
def initSerializer (declared : FieldMap) (classExtra : List String)
    (kwFields kwExclude kwExtra : Option PyIterable)
    (ctx : Option Context) : Except SerializerError Serializer :=
  -- DynamicFieldsSerializerMixin.__init__: pop the two list arguments.
  let fields0 := _pop_field_list kwFields
  let exclude0 := _pop_field_list kwExclude
  -- super().__init__: IntrospectableSerializerMixin builds _extra_fields,
  -- the base serializer builds self.fields from the declared fields.
  let s0 : Serializer := { fields := declared
                           _extra_fields := introspectableExtra classExtra kwExtra }
  -- Merge query parameters from the request, only for a top-level instance.
  let merged : List String × List String :=
    match ctx with
    | some c =>
      match c.request with
      | some r =>
        if c.top_level then
          (fields0 ++ r.fields_params, exclude0 ++ r.exclude_params)
        else (fields0, exclude0)
      | none => (fields0, exclude0)
    | none => (fields0, exclude0)
  let fields1 := merged.1
  let exclude1 := merged.2
  let valid_fields := fieldNames s0.fields
  match _verify_field_names fields1 valid_fields "fields" with
  | .error e => .error e
  | .ok _ =>
  match _verify_field_names exclude1 valid_fields "exclude_fields" with
  | .error e => .error e
  | .ok _ =>
    if fields1.isEmpty then
      -- `elif exclude_fields:` — pop each excluded name (with default).
      if exclude1.isEmpty then .ok s0
      else .ok { s0 with fields := popFields s0.fields exclude1.toFinset }
    else
      -- `if fields:` — exclude_fields rules fields, then drop everything
      -- not selected.
      let fset := fields1.toFinset
      let fset := if exclude1.isEmpty then fset else fset \ exclude1.toFinset
      .ok { s0 with fields := popFields s0.fields (valid_fields \ fset) }

/-- `IntrospectableSerializerMixin.get_allowed_keys`: the names of the live
field collection united with `_extra_fields`. -/
def Serializer.get_allowed_keys (s : Serializer) : Finset String :=
  fieldNames s.fields ∪ s._extra_fields

/-- `StrictSerializerMixin._is_read_only`: a name absent from the field
collection is not read-only; otherwise the field object's `read_only`
attribute is read (default `False`). -/
def Serializer.is_read_only (s : Serializer) (field_name : String) : Bool :=
  match s.fields.find? (fun p => p.1 == field_name) with
  | none => false
  | some p => p.2

/-- `StrictSerializerMixin.maybe_raise_error`: raise a `FieldError` listing
the given fields unless the set is empty. -/
def maybe_raise_error (extra_fields : Finset String) : Except SerializerError Unit :=
  if extra_fields = ∅ then .ok ()
  else .error (.unknownFields extra_fields)

/-- `StrictSerializerMixin.check_read_only_fields`: collect the keys that
name read-only fields, in payload order, and raise a `FieldError` listing
them when there are any. -/
def Serializer.check_read_only_fields (s : Serializer) (keys : List String) :
    Except SerializerError Unit :=
  let updated_read_only := keys.filter (fun k => s.is_read_only k)
  if updated_read_only.isEmpty then .ok ()
  else .error (.readOnlyFields updated_read_only)

/-- The payload handed to `to_internal_value`: either a mapping, identified
by its keys (the values are never consulted by the mixin's checks), or a
non-mapping value. -/
inductive PyData where
  | dict (keys : List String)
  | notDict
  deriving DecidableEq

/-- `StrictSerializerMixin.to_internal_value`: reject a non-mapping with a
`ValidationError`; reject unknown keys (`set(data.keys()) -
self.get_allowed_keys()`) via `maybe_raise_error`; reject read-only keys
via `check_read_only_fields`; otherwise delegate to the framework's
`to_internal_value` (external code, modelled as succeeding with the data). -/
def Serializer.to_internal_value (s : Serializer) (data : PyData) :
    Except SerializerError PyData :=
  match data with
  | .notDict => .error (.validationError "Invalid input: must be a dict.")
  | .dict keys =>
    let extra_fields := keys.toFinset \ s.get_allowed_keys
    match maybe_raise_error extra_fields with
    | .error e => .error e
    | .ok _ =>
      match s.check_read_only_fields keys with
      | .error e => .error e
      | .ok _ => .ok data

example :
    initSerializer [("a", false), ("b", false), ("c", true)] []
      (some (.list ["a", "b"])) (some (.list ["b"])) none none =
    .ok { fields := [("a", false)], _extra_fields := ∅ } := by decide

example :
    initSerializer [("a", false)] [] (some (.list ["z"])) none none none =
    .error (.unknownFilterFields "fields" {"z"}) := by decide

/-! ### Helper lemmas -/

/-- `_verify_field_names` succeeds exactly when every listed name is valid. -/
lemma verify_ok_iff (l : List String) (v : Finset String) (fn : String) :
    _verify_field_names l v fn = .ok () ↔ l.toFinset \ v = ∅ := by
  cases l with
  | nil => simp [_verify_field_names]
  | cons a t =>
    simp only [_verify_field_names, List.isEmpty_cons, Bool.false_eq_true, if_false]
    split_ifs with h
    · exact iff_of_true rfl h
    · exact iff_of_false (by simp) h

/-- `_verify_field_names` raises a `FieldError` naming exactly the invalid
names when there are any. -/
lemma verify_error (l : List String) (v : Finset String) (fn : String)
    (h : l.toFinset \ v ≠ ∅) :
    _verify_field_names l v fn = .error (.unknownFilterFields fn (l.toFinset \ v)) := by
  cases l with
  | nil => exact absurd (by simp) h
  | cons a t =>
    simp only [_verify_field_names, List.isEmpty_cons, Bool.false_eq_true, if_false]
    rw [if_neg h]

/-- Popping a set of keys removes exactly those names from the key set. -/
lemma popFields_names (fields : FieldMap) (names : Finset String) :
    fieldNames (popFields fields names) = fieldNames fields \ names := by
  ext n
  simp only [popFields, fieldNames, List.mem_toFinset, List.mem_map, List.mem_filter,
    Finset.mem_sdiff, decide_not, Bool.not_eq_eq_eq_not, Bool.not_true, decide_eq_false_iff_not]
  constructor
  · rintro ⟨p, ⟨hp, hnot⟩, rfl⟩
    exact ⟨⟨p, hp, rfl⟩, hnot⟩
  · rintro ⟨⟨p, hp, rfl⟩, hnot⟩
    exact ⟨p, ⟨hp, hnot⟩, rfl⟩

/-- A list is a subset of a set exactly when its extra names are none. -/
lemma sdiff_empty_iff (l : List String) (v : Finset String) :
    l.toFinset \ v = ∅ ↔ ∀ n ∈ l, n ∈ v := by
  rw [Finset.sdiff_eq_empty_iff_subset]
  constructor
  · intro h n hn
    exact h (List.mem_toFinset.mpr hn)
  · intro h n hn
    exact h n (List.mem_toFinset.mp hn)

/-- With no context, `initSerializer` unfolds to verification of the two
popped lists followed by the selection branches. -/
lemma initSerializer_none_eq (declared : FieldMap) (classExtra : List String)
    (kwFields kwExclude kwExtra : Option PyIterable) :
    initSerializer declared classExtra kwFields kwExclude kwExtra none =
    (match _verify_field_names (_pop_field_list kwFields) (fieldNames declared) "fields" with
     | .error e => .error e
     | .ok _ =>
       match _verify_field_names (_pop_field_list kwExclude) (fieldNames declared)
           "exclude_fields" with
       | .error e => .error e
       | .ok _ =>
         if (_pop_field_list kwFields).isEmpty then
           if (_pop_field_list kwExclude).isEmpty then
             .ok ⟨declared, introspectableExtra classExtra kwExtra⟩
           else
             .ok ⟨popFields declared (_pop_field_list kwExclude).toFinset,
                  introspectableExtra classExtra kwExtra⟩
         else
           .ok ⟨popFields declared
                  (fieldNames declared \
                    (if (_pop_field_list kwExclude).isEmpty then
                       (_pop_field_list kwFields).toFinset
                     else
                       (_pop_field_list kwFields).toFinset \
                         (_pop_field_list kwExclude).toFinset)),
                introspectableExtra classExtra kwExtra⟩) := rfl

/-- When every popped name is valid, construction with no context succeeds. -/
lemma initSerializer_none_isOk (declared : FieldMap) (classExtra : List String)
    (kwFields kwExclude kwExtra : Option PyIterable)
    (hI : (_pop_field_list kwFields).toFinset \ fieldNames declared = ∅)
    (hE : (_pop_field_list kwExclude).toFinset \ fieldNames declared = ∅) :
    ∃ s, initSerializer declared classExtra kwFields kwExclude kwExtra none = .ok s := by
  rw [initSerializer_none_eq,
    (verify_ok_iff (_pop_field_list kwFields) (fieldNames declared) "fields").mpr hI,
    (verify_ok_iff (_pop_field_list kwExclude) (fieldNames declared) "exclude_fields").mpr hE]
  split_ifs <;> exact ⟨_, rfl⟩

/-- The key set of the field collection produced by a successful
construction with no context:
`(include list nonempty ? include ∩ declared : declared) − exclude`. -/
lemma initSerializer_none_keys (declared : FieldMap) (classExtra : List String)
    (kwFields kwExclude kwExtra : Option PyIterable) (s : Serializer)
    (h : initSerializer declared classExtra kwFields kwExclude kwExtra none = .ok s) :
    fieldNames s.fields =
      (if (_pop_field_list kwFields).isEmpty then fieldNames declared
       else (_pop_field_list kwFields).toFinset ∩ fieldNames declared) \
        (_pop_field_list kwExclude).toFinset := by
  rw [initSerializer_none_eq] at h
  cases hv1 : _verify_field_names (_pop_field_list kwFields) (fieldNames declared) "fields" with
  | error e => rw [hv1] at h; exact absurd h (by simp)
  | ok u =>
    cases u
    cases hv2 : _verify_field_names (_pop_field_list kwExclude) (fieldNames declared)
        "exclude_fields" with
    | error e => rw [hv1, hv2] at h; exact absurd h (by simp)
    | ok v =>
      cases v
      rw [hv1, hv2] at h
      cases hIe : (_pop_field_list kwFields).isEmpty with
      | true =>
        rw [List.isEmpty_iff] at hIe
        cases hEe : (_pop_field_list kwExclude).isEmpty with
        | true =>
          rw [List.isEmpty_iff] at hEe
          simp only [hIe, hEe, List.isEmpty_nil, if_true] at h ⊢
          cases h
          simp
        | false =>
          simp only [hIe, List.isEmpty_nil, hEe, Bool.false_eq_true, if_true, if_false] at h ⊢
          cases h
          simp [popFields_names]
      | false =>
        simp only [hIe, Bool.false_eq_true, if_false] at h ⊢
        cases h
        rw [popFields_names]
        cases hEe : (_pop_field_list kwExclude).isEmpty with
        | true =>
          rw [List.isEmpty_iff] at hEe
          simp only [hEe, List.isEmpty_nil, if_true]
          ext n
          simp only [Finset.mem_sdiff, Finset.mem_inter, List.toFinset_nil,
            Finset.not_mem_empty, not_false_iff, and_true, not_and, not_not]
          tauto
        | false =>
          simp only [hEe, Bool.false_eq_true, if_false]
          ext n
          simp only [Finset.mem_sdiff, Finset.mem_inter, not_and, not_not]
          tauto

/-- `to_internal_value` on a mapping: the unknown-key check fires first,
then the read-only check, then delegation. -/
lemma to_internal_value_dict_eq (s : Serializer) (keys : List String) :
    s.to_internal_value (.dict keys) =
    (if keys.toFinset \ s.get_allowed_keys = ∅ then
       (if (keys.filter (fun k => s.is_read_only k)).isEmpty then .ok (.dict keys)
        else .error (.readOnlyFields (keys.filter (fun k => s.is_read_only k))))
     else .error (.unknownFields (keys.toFinset \ s.get_allowed_keys))) := by
  by_cases h1 : keys.toFinset \ s.get_allowed_keys = ∅
  · cases h2 : (keys.filter (fun k => s.is_read_only k)).isEmpty with
    | true =>
      simp [Serializer.to_internal_value, maybe_raise_error,
        Serializer.check_read_only_fields, h1, h2]
    | false =>
      simp [Serializer.to_internal_value, maybe_raise_error,
        Serializer.check_read_only_fields, h1, h2]
  · simp [Serializer.to_internal_value, maybe_raise_error, h1]

/-! ### Claims -/

/-- C1: for a serializer constructed with declared field set `declared`, an
include list `I` and an exclude list `E` whose names are all declared,
construction succeeds and the field collection holds exactly
(`I` if non-empty, else the declared names) minus `E`; consequently every
name in both `I` and `E` is absent (exclude overrides include). -/
theorem C1_include_exclude_selection (declared : FieldMap) (I E : List String)
    (hI : ∀ n ∈ I, n ∈ fieldNames declared)
    (hE : ∀ n ∈ E, n ∈ fieldNames declared) :
    ∃ s, initSerializer declared [] (some (.list I)) (some (.list E)) none none = .ok s ∧
      fieldNames s.fields =
        (if I.isEmpty then fieldNames declared else I.toFinset) \ E.toFinset ∧
      ∀ n ∈ I, n ∈ E → n ∉ fieldNames s.fields := by
  obtain ⟨s, hs⟩ := initSerializer_none_isOk declared [] (some (.list I)) (some (.list E)) none
    ((sdiff_empty_iff I (fieldNames declared)).mpr hI)
    ((sdiff_empty_iff E (fieldNames declared)).mpr hE)
  have hkeys := initSerializer_none_keys declared [] (some (.list I)) (some (.list E)) none s hs
  simp only [_pop_field_list] at hkeys
  have hmain : fieldNames s.fields =
      (if I.isEmpty then fieldNames declared else I.toFinset) \ E.toFinset := by
    rw [hkeys]
    cases hIe : I.isEmpty with
    | true => simp
    | false =>
      simp only [if_false, Bool.false_eq_true]
      congr 1
      exact Finset.inter_eq_left.mpr fun n hn => hI n (List.mem_toFinset.mp hn)
  refine ⟨s, hs, hmain, fun n hnI hnE => ?_⟩
  rw [hmain]
  intro hc
  exact (Finset.mem_sdiff.mp hc).2 (List.mem_toFinset.mpr hnE)

/-- C1 witness at a concrete instance. -/
theorem C1_include_exclude_selection_witness :
    ∃ s, initSerializer [("a", false), ("b", false), ("c", true)] []
        (some (.list ["a", "b"])) (some (.list ["b"])) none none = .ok s ∧
      fieldNames s.fields =
        (if (["a", "b"] : List String).isEmpty then
           fieldNames [("a", false), ("b", false), ("c", true)]
         else (["a", "b"] : List String).toFinset) \ (["b"] : List String).toFinset ∧
      ∀ n ∈ (["a", "b"] : List String), n ∈ (["b"] : List String) →
        n ∉ fieldNames s.fields :=
  C1_include_exclude_selection [("a", false), ("b", false), ("c", true)]
    ["a", "b"] ["b"] (by decide) (by decide)

/-- C2 counterexample: with declared fields `{"a"}` and the include list
`[]` (which is a subset of the declared set), no exclude list and no
request context, the resulting field collection is `{"a"}`, not the empty
set that the claim's "exactly I" demands. -/
theorem C2_counterexample :
    ∃ s, initSerializer [("a", false)] [] (some (.list [])) none none none = .ok s ∧
      fieldNames s.fields ≠ ([] : List String).toFinset :=
  ⟨⟨[("a", false)], ∅⟩, by decide, by decide⟩

/-- C2 (amended): for every declared field set and every NON-EMPTY include
list `I` whose names are all declared, with no exclude list and no request
context, construction succeeds and the field collection holds exactly the
names of `I`.  (An empty `fields` list is falsy in the source, so it means
"no selection" and leaves the declared collection untouched.) -/
theorem C2_amended_nonempty_include (declared : FieldMap) (I : List String)
    (hne : I ≠ []) (hI : ∀ n ∈ I, n ∈ fieldNames declared) :
    ∃ s, initSerializer declared [] (some (.list I)) none none none = .ok s ∧
      fieldNames s.fields = I.toFinset := by
  obtain ⟨s, hs⟩ := initSerializer_none_isOk declared [] (some (.list I)) none none
    ((sdiff_empty_iff I (fieldNames declared)).mpr hI)
    (by simp [_pop_field_list])
  have hkeys := initSerializer_none_keys declared [] (some (.list I)) none none s hs
  simp only [_pop_field_list] at hkeys
  refine ⟨s, hs, ?_⟩
  rw [hkeys, if_neg (by simpa [List.isEmpty_iff] using hne)]
  simp only [List.toFinset_nil, Finset.sdiff_empty]
  exact Finset.inter_eq_left.mpr fun n hn => hI n (List.mem_toFinset.mp hn)

/-- C2 (amended) witness at a concrete instance. -/
theorem C2_amended_nonempty_include_witness :
    ∃ s, initSerializer [("a", false), ("b", true)] [] (some (.list ["b"])) none none none =
        .ok s ∧ fieldNames s.fields = (["b"] : List String).toFinset :=
  C2_amended_nonempty_include [("a", false), ("b", true)] ["b"] (by decide) (by decide)

/-- C3 counterexample: passing the comma-separated string `"ab,cd"` as the
`extra_fields` keyword argument does not put the named field `"ab"` into
`get_allowed_keys` — `set.update` iterates the string character by
character, so only one-character names are added. -/
theorem C3_counterexample :
    ∃ s, initSerializer [] [] none none (some (.str "ab,cd")) none = .ok s ∧
      "ab" ∉ s.get_allowed_keys :=
  ⟨⟨[], {"a", "b", ",", "c", "d"}⟩, by decide, by decide⟩

/-- C3 (amended): when `extra_fields` is given as a list, each listed name
becomes a member of `get_allowed_keys`; when it is given as a string, the
individual characters of the string (as one-character names) — not the
comma-separated names — become members. -/
theorem C3_extra_fields_forms (declared : FieldMap) (classExtra : List String)
    (l : List String) (str : String) :
    (∀ n ∈ l, ∃ s,
      initSerializer declared classExtra none none (some (.list l)) none = .ok s ∧
        n ∈ s.get_allowed_keys) ∧
    (∀ c ∈ str.data, ∃ s,
      initSerializer declared classExtra none none (some (.str str)) none = .ok s ∧
        Char.toString c ∈ s.get_allowed_keys) := by
  constructor
  · intro n hn
    refine ⟨_, initSerializer_none_eq declared classExtra none none (some (.list l)), ?_⟩
    simp only [Serializer.get_allowed_keys, introspectableExtra, setUpdate, Finset.mem_union]
    exact Or.inr (Or.inr (List.mem_toFinset.mpr hn))
  · intro c hc
    refine ⟨_, initSerializer_none_eq declared classExtra none none (some (.str str)), ?_⟩
    simp only [Serializer.get_allowed_keys, introspectableExtra, setUpdate, Finset.mem_union]
    exact Or.inr (Or.inr (List.mem_toFinset.mpr (List.mem_map.mpr ⟨c, hc, rfl⟩)))

/-- C3 (amended) witness at a concrete instance. -/
theorem C3_extra_fields_forms_witness :
    (∃ s, initSerializer [] [] none none (some (.list ["foo"])) none = .ok s ∧
      "foo" ∈ s.get_allowed_keys) ∧
    (∃ s, initSerializer [] [] none none (some (.str "ab,cd")) none = .ok s ∧
      Char.toString 'a' ∈ s.get_allowed_keys) :=
  ⟨(C3_extra_fields_forms [] [] ["foo"] "ab,cd").1 "foo" (by decide),
   (C3_extra_fields_forms [] [] ["foo"] "ab,cd").2 'a' (by decide)⟩

/-- C4: an include or exclude selection list containing undeclared names
makes construction raise a `FieldError` naming exactly the unknown names of
that list (the include list is checked first); when every name of both
lists is declared, construction succeeds. -/
theorem C4_unknown_selection_names (declared : FieldMap) (I E : List String) :
    (I.toFinset \ fieldNames declared ≠ ∅ →
      initSerializer declared [] (some (.list I)) (some (.list E)) none none =
        .error (.unknownFilterFields "fields" (I.toFinset \ fieldNames declared))) ∧
    (I.toFinset \ fieldNames declared = ∅ → E.toFinset \ fieldNames declared ≠ ∅ →
      initSerializer declared [] (some (.list I)) (some (.list E)) none none =
        .error (.unknownFilterFields "exclude_fields" (E.toFinset \ fieldNames declared))) ∧
    ((∀ n ∈ I, n ∈ fieldNames declared) → (∀ n ∈ E, n ∈ fieldNames declared) →
      ∃ s, initSerializer declared [] (some (.list I)) (some (.list E)) none none = .ok s) := by
  refine ⟨fun hI => ?_, fun hI hE => ?_, fun hI hE => ?_⟩
  · rw [initSerializer_none_eq]
    simp only [_pop_field_list]
    rw [verify_error I (fieldNames declared) "fields" hI]
  · rw [initSerializer_none_eq]
    simp only [_pop_field_list]
    rw [(verify_ok_iff I (fieldNames declared) "fields").mpr hI,
      verify_error E (fieldNames declared) "exclude_fields" hE]
  · exact initSerializer_none_isOk declared [] (some (.list I)) (some (.list E)) none
      ((sdiff_empty_iff I (fieldNames declared)).mpr hI)
      ((sdiff_empty_iff E (fieldNames declared)).mpr hE)

/-- C4 witness at a concrete instance (the first conjunct, with the unknown
name `"z"` in the include list). -/
theorem C4_unknown_selection_names_witness :
    initSerializer [("a", false)] [] (some (.list ["a", "z"])) (some (.list [])) none none =
      .error (.unknownFilterFields "fields"
        ((["a", "z"] : List String).toFinset \ fieldNames [("a", false)])) :=
  (C4_unknown_selection_names [("a", false)] ["a", "z"] []).1 (by decide)

/-- C5: a mapping payload with keys outside the allowed set makes
`to_internal_value` raise a `FieldError` naming exactly the keys not in the
allowed set; a payload whose keys are all allowed never raises that
unknown-fields error. -/
theorem C5_unknown_payload_keys (s : Serializer) (keys : List String) :
    (keys.toFinset \ s.get_allowed_keys ≠ ∅ →
      s.to_internal_value (.dict keys) =
        .error (.unknownFields (keys.toFinset \ s.get_allowed_keys))) ∧
    (keys.toFinset \ s.get_allowed_keys = ∅ →
      ∀ names, s.to_internal_value (.dict keys) ≠ .error (.unknownFields names)) := by
  constructor
  · intro h
    rw [to_internal_value_dict_eq, if_neg h]
  · intro h names
    rw [to_internal_value_dict_eq, if_pos h]
    split_ifs <;> simp

/-- C5 witness at a concrete instance (first conjunct: the unknown key
`"z"` is rejected). -/
theorem C5_unknown_payload_keys_witness :
    Serializer.to_internal_value ⟨[("a", false)], ∅⟩ (.dict ["a", "z"]) =
      .error (.unknownFields ((["a", "z"] : List String).toFinset \
        Serializer.get_allowed_keys ⟨[("a", false)], ∅⟩)) :=
  (C5_unknown_payload_keys ⟨[("a", false)], ∅⟩ ["a", "z"]).1 (by decide)

/-- C6: a mapping payload whose keys are all allowed raises a `FieldError`
naming exactly the keys of read-only fields being set when there is at
least one such key, and never raises that read-only error when no key
names a read-only field. -/
theorem C6_read_only_keys (s : Serializer) (keys : List String)
    (hallowed : keys.toFinset \ s.get_allowed_keys = ∅) :
    ((∃ k ∈ keys, s.is_read_only k) →
      s.to_internal_value (.dict keys) =
        .error (.readOnlyFields (keys.filter (fun k => s.is_read_only k)))) ∧
    ((∀ k ∈ keys, ¬ s.is_read_only k) →
      ∀ names, s.to_internal_value (.dict keys) ≠ .error (.readOnlyFields names)) := by
  constructor
  · rintro ⟨k, hk, hro⟩
    have hne : ¬ (keys.filter (fun k => s.is_read_only k)).isEmpty = true := by
      rw [List.isEmpty_iff]
      intro hnil
      have : k ∈ keys.filter (fun k => s.is_read_only k) :=
        List.mem_filter.mpr ⟨hk, hro⟩
      rw [hnil] at this
      exact absurd this (List.not_mem_nil k)
    rw [to_internal_value_dict_eq, if_pos hallowed, if_neg hne]
  · intro h names
    have hf : keys.filter (fun k => s.is_read_only k) = [] := by
      rw [List.filter_eq_nil_iff]
      intro a ha
      exact by simpa using h a ha
    rw [to_internal_value_dict_eq, if_pos hallowed, hf]
    simp

/-- C6 witness at a concrete instance (first conjunct: setting the
read-only field `"a"` is rejected). -/
theorem C6_read_only_keys_witness :
    Serializer.to_internal_value ⟨[("a", true)], ∅⟩ (.dict ["a"]) =
      .error (.readOnlyFields ((["a"] : List String).filter
        (fun k => Serializer.is_read_only ⟨[("a", true)], ∅⟩ k))) :=
  (C6_read_only_keys ⟨[("a", true)], ∅⟩ ["a"] (by decide)).1 (by decide)

/-- C7: a non-mapping payload is rejected with a `ValidationError` before
any field check; a mapping payload is never rejected with a
`ValidationError`. -/
theorem C7_non_mapping_validation (s : Serializer) (keys : List String) :
    s.to_internal_value .notDict =
      .error (.validationError "Invalid input: must be a dict.") ∧
    ∀ msg, s.to_internal_value (.dict keys) ≠ .error (.validationError msg) := by
  refine ⟨rfl, fun msg => ?_⟩
  rw [to_internal_value_dict_eq]
  split_ifs <;> simp

/-- C8: the request's `fields` / `exclude_fields` query parameters have no
effect when the instance is not marked top-level, and for a top-level
instance they are appended to the popped selection lists. -/
theorem C8_query_params_top_level_only (declared : FieldMap) (classExtra : List String)
    (kwFields kwExclude kwExtra : Option PyIterable) (r : Request) :
    initSerializer declared classExtra kwFields kwExclude kwExtra
        (some ⟨some r, false⟩) =
      initSerializer declared classExtra kwFields kwExclude kwExtra none ∧
    initSerializer declared classExtra kwFields kwExclude kwExtra
        (some ⟨some r, true⟩) =
      initSerializer declared classExtra
        (some (.list (_pop_field_list kwFields ++ r.fields_params)))
        (some (.list (_pop_field_list kwExclude ++ r.exclude_params))) kwExtra none :=
  ⟨rfl, rfl⟩

/-- C9: when a mapping payload contains both a key outside the allowed set
and a key naming a read-only field, the unknown-fields `FieldError` is
raised (the read-only check is never reached). -/
theorem C9_unknown_checked_before_read_only (s : Serializer) (keys : List String)
    (h1 : ∃ k ∈ keys, k ∉ s.get_allowed_keys) (h2 : ∃ k ∈ keys, s.is_read_only k) :
    s.to_internal_value (.dict keys) =
      .error (.unknownFields (keys.toFinset \ s.get_allowed_keys)) := by
  obtain ⟨k, hk, hmem⟩ := h1
  have hin : k ∈ keys.toFinset \ s.get_allowed_keys :=
    Finset.mem_sdiff.mpr ⟨List.mem_toFinset.mpr hk, hmem⟩
  have hne : ¬ keys.toFinset \ s.get_allowed_keys = ∅ := fun hc => by
    rw [hc] at hin
    exact absurd hin (Finset.not_mem_empty k)
  rw [to_internal_value_dict_eq, if_neg hne]

/-- C9 witness at a concrete instance: `"z"` is unknown and `"a"` is
read-only; the unknown-fields error wins. -/
theorem C9_unknown_checked_before_read_only_witness :
    Serializer.to_internal_value ⟨[("a", true)], ∅⟩ (.dict ["a", "z"]) =
      .error (.unknownFields ((["a", "z"] : List String).toFinset \
        Serializer.get_allowed_keys ⟨[("a", true)], ∅⟩)) :=
  C9_unknown_checked_before_read_only ⟨[("a", true)], ∅⟩ ["a", "z"]
    (by decide) (by decide)

/-- C10: a declared field removed by the dynamic selection (and not listed
among the extra fields) is afterwards rejected by `to_internal_value` as an
unknown key when it appears in a payload — `get_allowed_keys` reads the
live field collection after the selection mutated it. -/
theorem C10_removed_field_rejected (declared : FieldMap) (classExtra : List String)
    (kwFields kwExclude kwExtra : Option PyIterable) (s : Serializer)
    (n : String) (keys : List String)
    (hok : initSerializer declared classExtra kwFields kwExclude kwExtra none = .ok s)
    (hdecl : n ∈ fieldNames declared) (hrem : n ∉ fieldNames s.fields)
    (hextra : n ∉ s._extra_fields) (hkey : n ∈ keys) :
    ∃ names, s.to_internal_value (.dict keys) = .error (.unknownFields names) ∧
      n ∈ names := by
  have hallow : n ∉ s.get_allowed_keys := by
    simp only [Serializer.get_allowed_keys, Finset.mem_union]
    rintro (hc | hc)
    · exact hrem hc
    · exact hextra hc
  have hin : n ∈ keys.toFinset \ s.get_allowed_keys :=
    Finset.mem_sdiff.mpr ⟨List.mem_toFinset.mpr hkey, hallow⟩
  refine ⟨keys.toFinset \ s.get_allowed_keys, ?_, hin⟩
  have hne : ¬ keys.toFinset \ s.get_allowed_keys = ∅ := fun hc => by
    rw [hc] at hin
    exact absurd hin (Finset.not_mem_empty n)
  rw [to_internal_value_dict_eq, if_neg hne]

/-- C10 witness at a concrete instance: `"b"` is declared, removed by the
selection `fields=["a"]`, and then rejected as unknown in a payload. -/
theorem C10_removed_field_rejected_witness :
    ∃ names, Serializer.to_internal_value ⟨[("a", false)], ∅⟩ (.dict ["b"]) =
        .error (.unknownFields names) ∧ "b" ∈ names :=
  C10_removed_field_rejected [("a", false), ("b", false)] [] (some (.list ["a"]))
    none none ⟨[("a", false)], ∅⟩ "b" ["b"]
    (by decide) (by decide) (by decide) (by decide) (by decide)
